import Mathlib

/-!
Formal model of the voice-activity detector implemented in
src/lib/voice-activity-detector.ts.

Modelling conventions:
* JS number arithmetic is modelled over the rationals (exact arithmetic);
  wall-clock millisecond timestamps (Date.now()) are modelled as integers.
* The only NaN-producing operation reachable in this file is the JS division
  0 / 0 performed on an empty frame; a value that may be NaN is modelled as
  an Option with none standing for NaN.
* Uint8Array frames are modelled as lists of naturals (entries 0 to 255).
* calculateEnergy ends in Math.sqrt, which is not rational-valued; the model
  exposes the radicand (calculateEnergyMeanSquare).  Math.sqrt sends 0 to 0,
  NaN to NaN and positives to positives, so whether the energy is zero or NaN
  is fully determined by the radicand, and every other use of the energy in
  the detector is parametric in its numeric value.
-/

/-- Configuration record, interface VoiceActivityConfig (source lines 7-26). -/
structure VoiceActivityConfig where
  energyThreshold : ℚ
  zeroCrossingThreshold : ℚ
  minSpeechDuration : ℤ
  minSilenceDuration : ℤ
  fftSize : ℕ
  voiceFrequencyMin : ℚ
  voiceFrequencyMax : ℚ
  deriving DecidableEq, Repr

/-- DEFAULT_CONFIG (source lines 36-44). -/
def DEFAULT_CONFIG : VoiceActivityConfig where
  energyThreshold := 0.02
  zeroCrossingThreshold := 0.3
  minSpeechDuration := 300
  minSilenceDuration := 800
  fftSize := 2048
  voiceFrequencyMin := 85
  voiceFrequencyMax := 3400

/-- A TS Partial of VoiceActivityConfig: each field optionally overridden. -/
structure ConfigPatch where
  energyThreshold : Option ℚ := none
  zeroCrossingThreshold : Option ℚ := none
  minSpeechDuration : Option ℤ := none
  minSilenceDuration : Option ℤ := none
  fftSize : Option ℕ := none
  voiceFrequencyMin : Option ℚ := none
  voiceFrequencyMax : Option ℚ := none
  deriving DecidableEq, Repr

/-- The object-spread merge used by the constructor (line 64) and by
updateConfig (line 303): fields present in the patch override. -/
def mergeConfig (c : VoiceActivityConfig) (p : ConfigPatch) : VoiceActivityConfig where
  energyThreshold := p.energyThreshold.getD c.energyThreshold
  zeroCrossingThreshold := p.zeroCrossingThreshold.getD c.zeroCrossingThreshold
  minSpeechDuration := p.minSpeechDuration.getD c.minSpeechDuration
  minSilenceDuration := p.minSilenceDuration.getD c.minSilenceDuration
  fftSize := p.fftSize.getD c.fftSize
  voiceFrequencyMin := p.voiceFrequencyMin.getD c.voiceFrequencyMin
  voiceFrequencyMax := p.voiceFrequencyMax.getD c.voiceFrequencyMax

/-- Event kinds, interface VoiceActivityEvent (source line 29). -/
inductive EventType where
  | speech_start
  | speech_end
  | speech_active
  | noise
  deriving DecidableEq, Repr

/-- Emitted event value (source lines 28-34); duration is present only when
the emitter sets it. -/
structure VoiceActivityEvent where
  type : EventType
  timestamp : ℤ
  energy : ℚ
  confidence : ℚ
  duration : Option ℤ := none
  deriving DecidableEq, Repr

/-- Radicand of calculateEnergy (source lines 231-238): the mean over the
frame of the square of each sample normalized to the range -1 to 1.  The
source returns Math.sqrt of this value; on an empty frame the JS division
0 / 0 yields NaN (modelled as none), and Math.sqrt propagates it. -/
def calculateEnergyMeanSquare (data : List ℕ) : Option ℚ :=
  let sum := (data.map (fun d => (((d : ℚ) - 128) / 128) * (((d : ℚ) - 128) / 128))).sum
  if data.length = 0 then none else some (sum / data.length)

/-- Number of midpoint sign transitions between consecutive samples
(source lines 267-275). -/
def zeroCrossings : List ℕ → ℕ
  | [] => 0
  | [_] => 0
  | a :: b :: rest =>
      (if (128 ≤ b ∧ a < 128) ∨ (b < 128 ∧ 128 ≤ a) then 1 else 0) + zeroCrossings (b :: rest)

/-- calculateZeroCrossingRate (source lines 266-277): crossings divided by
data.length.  On an empty frame the JS division 0 / 0 yields NaN (none). -/
def calculateZeroCrossingRate (data : List ℕ) : Option ℚ :=
  if data.length = 0 then none
  else some ((zeroCrossings data : ℚ) / data.length)

/-- calculateVoiceEnergy (source lines 243-261).  The sampleRate argument is
none when this.audioContext is null (the early return on line 244).
Frequencies and the sample rate are nonnegative in every reachable
configuration, so Math.floor lands on a nonnegative integer, modelled with
Int.toNat of the floor. -/
def calculateVoiceEnergy (cfg : VoiceActivityConfig) (sampleRate : Option ℚ)
    (frequencyData : List ℕ) : ℚ :=
  match sampleRate with
  | none => 0
  | some sr =>
    let binSize := sr / (cfg.fftSize : ℚ)
    let minBin := (⌊cfg.voiceFrequencyMin / binSize⌋).toNat
    let maxBin := (⌊cfg.voiceFrequencyMax / binSize⌋).toNat
    let hi := min maxBin frequencyData.length
    let count := hi - minBin
    let sum := (((List.range hi).drop minBin).map
      (fun i => (frequencyData.getD i 0 : ℚ) / 255)).sum
    if 0 < count then sum / (count : ℚ) else 0

/-- this.energyHistorySize (source line 59). -/
def energyHistorySize : ℕ := 10

/-- History update (source lines 120-123): push the new energy, then shift
(drop the oldest, i.e. first, element) when the length exceeds the size. -/
def pushEnergy (hist : List ℚ) (energy : ℚ) : List ℚ :=
  let h := hist ++ [energy]
  if energyHistorySize < h.length then h.tail else h

/-- avgEnergy (source lines 126-128): sum of the history over its length. -/
def avgEnergy (hist : List ℚ) : ℚ := hist.sum / (hist.length : ℚ)

/-- adaptiveThreshold (source lines 129-132). -/
def adaptiveThreshold (cfg : VoiceActivityConfig) (hist : List ℚ) : ℚ :=
  max cfg.energyThreshold (avgEnergy hist * 1.5)

/-- Confidence fusion (source lines 134-140). -/
def confidenceScore (cfg : VoiceActivityConfig)
    (energy voiceEnergy zeroCrossingRate thr : ℚ) : ℚ :=
  let energyScore := min 1 (energy / thr)
  let voiceScore := min 1 (voiceEnergy / thr)
  let zcrScore : ℚ := if zeroCrossingRate < cfg.zeroCrossingThreshold then 1 else 0
  energyScore * 0.4 + voiceScore * 0.5 + zcrScore * 0.1

/-- isVoicePresent (source line 143). -/
def isVoicePresent (confidence : ℚ) : Bool := decide (0.6 < confidence)

/-- The four mutable state-machine fields of the detector
(source lines 53-56). -/
structure RunState where
  isSpeaking : Bool
  speechStartTime : ℤ
  lastSpeechTime : ℤ
  silenceStartTime : ℤ
  deriving DecidableEq, Repr

/-- Field values at construction (source lines 53-56). -/
def initialRunState : RunState where
  isSpeaking := false
  speechStartTime := 0
  lastSpeechTime := 0
  silenceStartTime := 0

/-- One evaluation of the speech state machine (source lines 146-220), given
the wall clock now, the isVoicePresent boolean and the frame's energy and
confidence (used for event payloads and the noise gate).  Returns the updated
state and the events emitted during this frame, in emission order. -/
def stateStep (cfg : VoiceActivityConfig) (s : RunState) (now : ℤ)
    (voicePresent : Bool) (energy confidence : ℚ) :
    RunState × List VoiceActivityEvent :=
  if voicePresent then
    let s := { s with lastSpeechTime := now }
    if !s.isSpeaking then
      if s.speechStartTime = 0 then
        ({ s with speechStartTime := now }, [])
      else if cfg.minSpeechDuration ≤ now - s.speechStartTime then
        ({ s with isSpeaking := true, silenceStartTime := 0 },
         [{ type := .speech_start, timestamp := now, energy := energy,
            confidence := confidence }])
      else (s, [])
    else
      (s, [{ type := .speech_active, timestamp := now, energy := energy,
             confidence := confidence }])
  else
    if s.isSpeaking then
      if s.silenceStartTime = 0 then
        ({ s with silenceStartTime := now }, [])
      else if cfg.minSilenceDuration ≤ now - s.silenceStartTime then
        ({ s with isSpeaking := false, speechStartTime := 0, silenceStartTime := 0 },
         [{ type := .speech_end, timestamp := now, energy := energy,
            confidence := confidence,
            duration := some (now - s.lastSpeechTime + cfg.minSilenceDuration) }])
      else (s, [])
    else
      let s := if s.speechStartTime ≠ 0 ∧ now - s.speechStartTime < cfg.minSpeechDuration
               then { s with speechStartTime := 0 } else s
      if cfg.energyThreshold * 0.5 < energy then
        (s, [{ type := .noise, timestamp := now, energy := energy,
               confidence := confidence }])
      else (s, [])

/-- One polled frame of a schedule, reduced to the quantities the state
machine consumes: the wall clock and the computed energy and confidence.
Voice presence is derived from the confidence exactly as on source line 143. -/
structure PolledFrame where
  now : ℤ
  energy : ℚ
  confidence : ℚ
  deriving DecidableEq, Repr

/-- Voice presence of a polled frame (source line 143). -/
def PolledFrame.present (f : PolledFrame) : Bool := isVoicePresent f.confidence

/-- Run the state machine over a schedule of polled frames, collecting the
emitted events in frame order. -/
def runTrace (cfg : VoiceActivityConfig) (s : RunState) :
    List PolledFrame → RunState × List VoiceActivityEvent
  | [] => (s, [])
  | f :: rest =>
    let step := stateStep cfg s f.now f.present f.energy f.confidence
    let next := runTrace cfg step.1 rest
    (next.1, step.2 ++ next.2)

/-- The detector object (source lines 46-65).  The Web Audio resources are
modelled by their presence: a boolean for each nullable field, and the
animation-frame handle as an optional id.  The run-time state-machine fields
are grouped in the run substate, together with the energy history. -/
structure Detector where
  audioContext : Bool
  analyser : Bool
  sourceNode : Bool
  animationFrame : Option ℤ
  config : VoiceActivityConfig
  run : RunState
  energyHistory : List ℚ
  deriving DecidableEq, Repr

/-- The constructor (source lines 63-65): spread-merge of DEFAULT_CONFIG with
the caller's partial configuration; all resources absent, all state zero. -/
def mkDetector (p : ConfigPatch) : Detector where
  audioContext := false
  analyser := false
  sourceNode := false
  animationFrame := none
  config := mergeConfig DEFAULT_CONFIG p
  run := initialRunState
  energyHistory := []

/-- updateConfig (source lines 302-305): unconditional spread-merge into the
live configuration; nothing else is touched and nothing is validated. -/
def updateConfig (d : Detector) (p : ConfigPatch) : Detector :=
  { d with config := mergeConfig d.config p }

/-- stop (source lines 310-333): conditionally release each resource, then
null the analyser and zero the four state-machine fields.  The energy history
is left as is (the source never clears it). -/
def Detector.stop (d : Detector) : Detector :=
  let d1 := if d.animationFrame.isSome then { d with animationFrame := none } else d
  let d2 := if d1.sourceNode then { d1 with sourceNode := false } else d1
  let d3 := if d2.audioContext then { d2 with audioContext := false } else d2
  { d3 with analyser := false,
            run := { isSpeaking := false, speechStartTime := 0,
                     lastSpeechTime := 0, silenceStartTime := 0 } }

/-- Snapshot returned by getState (source lines 291-297). -/
structure StateSnapshot where
  isSpeaking : Bool
  lastSpeechTime : ℤ
  timeSinceLastSpeech : ℤ
  deriving DecidableEq, Repr

/-- getState (source lines 291-297); now is the Date.now() reading. -/
def Detector.getState (d : Detector) (now : ℤ) : StateSnapshot where
  isSpeaking := d.run.isSpeaking
  lastSpeechTime := d.run.lastSpeechTime
  timeSinceLastSpeech := now - d.run.lastSpeechTime

/-- One iteration of the detect closure (source lines 101-223) above the
feature extraction: takes the already-computed scalar features of the newest
frame (energy, voice-band energy, zero-crossing rate), updates the energy
history, derives the adaptive threshold and the confidence, and runs the
state machine.  When the analyser is absent the closure returns immediately
(source line 102). -/
def detectStep (d : Detector) (now : ℤ) (energy voiceEnergy zeroCrossingRate : ℚ) :
    Detector × List VoiceActivityEvent :=
  if d.analyser = false then (d, []) else
  let hist := pushEnergy d.energyHistory energy
  let thr := adaptiveThreshold d.config hist
  let conf := confidenceScore d.config energy voiceEnergy zeroCrossingRate thr
  let present := isVoicePresent conf
  let step := stateStep d.config d.run now present energy conf
  ({ d with run := step.1, energyHistory := hist }, step.2)

/-- Run states reachable from construction via per-frame state-machine steps,
configuration updates and stop.  updateConfig only replaces the configuration
(see updateConfig above) and leaves the run state unchanged, which the update
constructor records; stop resets the four fields to their initial zeros. -/
inductive Reachable : RunState → Prop
  | init : Reachable initialRunState
  | frame {cfg : VoiceActivityConfig} {s : RunState} {now : ℤ} {p : Bool} {e c : ℚ} :
      Reachable s → Reachable (stateStep cfg s now p e c).1
  | update {s : RunState} : Reachable s → Reachable s
  | stopped {s : RunState} : Reachable s → Reachable initialRunState

/-- Every frame emits at most one event: each branch of the state machine has
a single emitEvent call. -/
theorem stateStep_events_shape (cfg : VoiceActivityConfig) (s : RunState) (now : ℤ)
    (p : Bool) (e c : ℚ) :
    (stateStep cfg s now p e c).2 = [] ∨
      ∃ ev, (stateStep cfg s now p e c).2 = [ev] := by
  simp only [stateStep]
  split_ifs <;> simp

/-- Every event emitted during a frame carries that frame's wall clock as its
timestamp. -/
theorem stateStep_timestamp (cfg : VoiceActivityConfig) (s : RunState) (now : ℤ)
    (p : Bool) (e c : ℚ) :
    ∀ ev ∈ (stateStep cfg s now p e c).2, ev.timestamp = now := by
  simp only [stateStep]
  split_ifs <;> simp

/-- lastSpeechTime is set to now exactly on voice-present frames
(source line 147) and is untouched otherwise. -/
theorem stateStep_lastSpeechTime (cfg : VoiceActivityConfig) (s : RunState) (now : ℤ)
    (p : Bool) (e c : ℚ) :
    (stateStep cfg s now p e c).1.lastSpeechTime =
      if p then now else s.lastSpeechTime := by
  simp only [stateStep]
  split_ifs <;> simp

/-- A voice-present frame while speaking leaves silenceStartTime untouched:
the failed end-debounce is not reset on recovery. -/
theorem stateStep_silence_of_present (cfg : VoiceActivityConfig) (s : RunState)
    (now : ℤ) (e c : ℚ) (h : s.isSpeaking = true) :
    (stateStep cfg s now true e c).1.silenceStartTime = s.silenceStartTime := by
  simp [stateStep, h]

/-- A voice-present frame never emits a speech_end. -/
theorem stateStep_present_no_end (cfg : VoiceActivityConfig) (s : RunState)
    (now : ℤ) (e c : ℚ) :
    ∀ ev ∈ (stateStep cfg s now true e c).2, ev.type ≠ EventType.speech_end := by
  simp only [stateStep]
  split_ifs <;> simp

theorem runTrace_nil (cfg : VoiceActivityConfig) (s : RunState) :
    runTrace cfg s [] = (s, []) := rfl

theorem runTrace_cons (cfg : VoiceActivityConfig) (s : RunState) (f : PolledFrame)
    (rest : List PolledFrame) :
    runTrace cfg s (f :: rest) =
      ((runTrace cfg (stateStep cfg s f.now f.present f.energy f.confidence).1 rest).1,
       (stateStep cfg s f.now f.present f.energy f.confidence).2 ++
         (runTrace cfg (stateStep cfg s f.now f.present f.energy f.confidence).1 rest).2) :=
  rfl

theorem runTrace_append (cfg : VoiceActivityConfig) :
    ∀ (l1 l2 : List PolledFrame) (s : RunState),
      runTrace cfg s (l1 ++ l2) =
        ((runTrace cfg (runTrace cfg s l1).1 l2).1,
         (runTrace cfg s l1).2 ++ (runTrace cfg (runTrace cfg s l1).1 l2).2) := by
  intro l1
  induction l1 with
  | nil => intro l2 s; simp [runTrace_nil]
  | cons f rest ih =>
    intro l2 s
    rw [List.cons_append, runTrace_cons, runTrace_cons, ih]
    simp [List.append_assoc]

/-- A duration field is attached exactly to speech_end events, and its value
is now - lastSpeechTime + minSilenceDuration (source lines 187-199). -/
theorem stateStep_duration (cfg : VoiceActivityConfig) (s : RunState) (now : ℤ)
    (p : Bool) (e c : ℚ) :
    ∀ ev ∈ (stateStep cfg s now p e c).2,
      (ev.duration ≠ none ↔ ev.type = EventType.speech_end) ∧
      (ev.type = EventType.speech_end →
        ev.duration = some (now - s.lastSpeechTime + cfg.minSilenceDuration)) := by
  simp only [stateStep]
  split_ifs <;> simp

/-- Over a whole schedule, only speech_end events carry a duration. -/
theorem runTrace_duration_iff (cfg : VoiceActivityConfig) :
    ∀ (frames : List PolledFrame) (s : RunState),
      ∀ ev ∈ (runTrace cfg s frames).2,
        (ev.duration ≠ none ↔ ev.type = EventType.speech_end) := by
  intro frames
  induction frames with
  | nil => intro s ev hev; simp [runTrace_nil] at hev
  | cons f rest ih =>
    intro s ev hev
    rw [runTrace_cons] at hev
    rcases List.mem_append.mp hev with h | h
    · exact (stateStep_duration cfg s f.now f.present f.energy f.confidence ev h).1
    · exact ih _ ev h

/-- lastSpeechTime after a schedule is the wall clock of the last
voice-present frame, or the prior value when none was present. -/
theorem runTrace_lastSpeechTime (cfg : VoiceActivityConfig) :
    ∀ (frames : List PolledFrame) (s : RunState),
      (runTrace cfg s frames).1.lastSpeechTime =
        frames.foldl (fun t f => if f.present = true then f.now else t)
          s.lastSpeechTime := by
  intro frames
  induction frames with
  | nil => intro s; simp [runTrace_nil]
  | cons f rest ih =>
    intro s
    rw [runTrace_cons]
    simp only [List.foldl_cons]
    rw [ih]
    congr 1
    rw [stateStep_lastSpeechTime]

/-- Every event of a schedule run is stamped with the clock of some frame of
the schedule. -/
theorem runTrace_timestamp_mem (cfg : VoiceActivityConfig) :
    ∀ (frames : List PolledFrame) (s : RunState) (ev : VoiceActivityEvent),
      ev ∈ (runTrace cfg s frames).2 → ∃ f ∈ frames, ev.timestamp = f.now := by
  intro frames
  induction frames with
  | nil => intro s ev hev; simp [runTrace_nil] at hev
  | cons f rest ih =>
    intro s ev hev
    rw [runTrace_cons] at hev
    rcases List.mem_append.mp hev with h | h
    · exact ⟨f, List.mem_cons_self f rest,
        stateStep_timestamp cfg s f.now f.present f.energy f.confidence ev h⟩
    · obtain ⟨g, hg, hts⟩ := ih _ ev h
      exact ⟨g, List.mem_cons_of_mem f hg, hts⟩

/-- Event timestamps are emitted in nondecreasing order whenever the frame
schedule is polled in nondecreasing clock order. -/
theorem runTrace_timestamps_sorted (cfg : VoiceActivityConfig) :
    ∀ (frames : List PolledFrame) (s : RunState),
      frames.Pairwise (fun f g => f.now ≤ g.now) →
      ((runTrace cfg s frames).2.map (fun e => e.timestamp)).Pairwise (· ≤ ·) := by
  intro frames
  induction frames with
  | nil => intro s _; simp [runTrace_nil]
  | cons f rest ih =>
    intro s h
    rw [runTrace_cons]
    rw [List.map_append, List.pairwise_append]
    refine ⟨?_, ih _ (List.pairwise_cons.mp h).2, ?_⟩
    · rcases stateStep_events_shape cfg s f.now f.present f.energy f.confidence with
        hsh | ⟨ev, hsh⟩ <;> simp [hsh]
    · intro a ha b hb
      simp only [List.mem_map] at ha hb
      obtain ⟨ev, hev, rfl⟩ := ha
      obtain ⟨ev', hev', rfl⟩ := hb
      obtain ⟨g, hg, hts⟩ := runTrace_timestamp_mem cfg rest _ ev' hev'
      rw [stateStep_timestamp cfg s f.now f.present f.energy f.confidence ev hev, hts]
      exact (List.pairwise_cons.mp h).1 g hg

/-- The start/end boundary events of an event list, in emission order. -/
def boundaryTypes (evs : List VoiceActivityEvent) : List EventType :=
  (evs.filter (fun e =>
    decide (e.type = EventType.speech_start ∨ e.type = EventType.speech_end))).map
    (fun e => e.type)

theorem boundaryTypes_append (l1 l2 : List VoiceActivityEvent) :
    boundaryTypes (l1 ++ l2) = boundaryTypes l1 ++ boundaryTypes l2 := by
  simp [boundaryTypes]

/-- Strict alternation of boundary events: read from a speaking flag, the
next boundary must be a start when not speaking and an end when speaking. -/
def altFrom : Bool → List EventType → Prop
  | _, [] => True
  | false, t :: rest => t = EventType.speech_start ∧ altFrom true rest
  | true, t :: rest => t = EventType.speech_end ∧ altFrom false rest

theorem altFrom_false_cons (t : EventType) (rest : List EventType) :
    altFrom false (t :: rest) ↔ t = EventType.speech_start ∧ altFrom true rest :=
  Iff.rfl

theorem altFrom_true_cons (t : EventType) (rest : List EventType) :
    altFrom true (t :: rest) ↔ t = EventType.speech_end ∧ altFrom false rest :=
  Iff.rfl

/-- Each frame changes isSpeaking exactly with its boundary event: no
boundary leaves the flag alone, a speech_start flips it from false to true,
a speech_end from true to false. -/
theorem stateStep_boundary (cfg : VoiceActivityConfig) (s : RunState) (now : ℤ)
    (p : Bool) (e c : ℚ) :
    (boundaryTypes (stateStep cfg s now p e c).2 = [] ∧
       (stateStep cfg s now p e c).1.isSpeaking = s.isSpeaking) ∨
    (boundaryTypes (stateStep cfg s now p e c).2 = [EventType.speech_start] ∧
       s.isSpeaking = false ∧ (stateStep cfg s now p e c).1.isSpeaking = true) ∨
    (boundaryTypes (stateStep cfg s now p e c).2 = [EventType.speech_end] ∧
       s.isSpeaking = true ∧ (stateStep cfg s now p e c).1.isSpeaking = false) := by
  simp only [stateStep]
  split_ifs <;> simp_all [boundaryTypes]

/-- The boundary events of any run alternate, starting from the initial
speaking flag of the state the run begins in. -/
theorem runTrace_altFrom (cfg : VoiceActivityConfig) :
    ∀ (frames : List PolledFrame) (s : RunState),
      altFrom s.isSpeaking (boundaryTypes (runTrace cfg s frames).2) := by
  intro frames
  induction frames with
  | nil => intro s; simp [runTrace_nil, boundaryTypes, altFrom]
  | cons f rest ih =>
    intro s
    rw [runTrace_cons]
    simp only
    rw [boundaryTypes_append]
    rcases stateStep_boundary cfg s f.now f.present f.energy f.confidence with
      ⟨hb, hs⟩ | ⟨hb, hs0, hs1⟩ | ⟨hb, hs0, hs1⟩
    · rw [hb, List.nil_append, ← hs]
      exact ih _
    · rw [hb, hs0, List.cons_append, List.nil_append, altFrom_false_cons]
      exact ⟨rfl, hs1 ▸ ih _⟩
    · rw [hb, hs0, List.cons_append, List.nil_append, altFrom_true_cons]
      exact ⟨rfl, hs1 ▸ ih _⟩

/-- In an alternating boundary list, a speech_start is never immediately
followed by another speech_start. -/
theorem altFrom_chain :
    ∀ (l : List EventType) (b : Bool), altFrom b l →
      List.Chain' (fun a c => a = EventType.speech_start → c = EventType.speech_end)
        l := by
  intro l
  induction l with
  | nil => intro b _; simp
  | cons t rest ih =>
    intro b h
    cases rest with
    | nil => simp
    | cons u r =>
      rw [List.chain'_cons]
      cases b with
      | false =>
        obtain ⟨ht, h'⟩ := (altFrom_false_cons t (u :: r)).mp h
        obtain ⟨hu, _⟩ := (altFrom_true_cons u r).mp h'
        exact ⟨fun _ => hu, ih true h'⟩
      | true =>
        obtain ⟨ht, h'⟩ := (altFrom_true_cons t (u :: r)).mp h
        refine ⟨fun hts => ?_, ih false h'⟩
        rw [ht] at hts
        exact absurd hts (by simp)

/-- Single-step preservation of the debounce-exclusivity invariant: the
silence accumulator is nonzero only while speaking. -/
theorem stateStep_silence_inv (cfg : VoiceActivityConfig) (s : RunState) (now : ℤ)
    (p : Bool) (e c : ℚ)
    (ih : s.silenceStartTime ≠ 0 → s.isSpeaking = true) :
    (stateStep cfg s now p e c).1.silenceStartTime ≠ 0 →
      (stateStep cfg s now p e c).1.isSpeaking = true := by
  simp only [stateStep]
  split_ifs <;> simp_all

/-- While speaking with a nonzero silence accumulator, voice-absent frames
polled strictly before the accumulator ages by minSilenceDuration change
nothing and emit nothing. -/
theorem runTrace_absent_window (cfg : VoiceActivityConfig) (T : ℤ) (hT : T ≠ 0) :
    ∀ (frames : List PolledFrame) (s : RunState),
      s.isSpeaking = true → s.silenceStartTime = T →
      (∀ f ∈ frames, f.present = false ∧ f.now - T < cfg.minSilenceDuration) →
      runTrace cfg s frames = (s, []) := by
  intro frames
  induction frames with
  | nil => intro s _ _ _; rfl
  | cons f rest ih =>
    intro s hs hsil hall
    obtain ⟨hp, hlt⟩ := hall f (List.mem_cons_self f rest)
    have hnc : ¬ cfg.minSilenceDuration ≤ f.now - T := not_le.mpr hlt
    have hstep : stateStep cfg s f.now f.present f.energy f.confidence = (s, []) := by
      rw [hp]
      simp [stateStep, hs, hsil, hT, hnc]
    simp [runTrace_cons, hstep,
      ih s hs hsil (fun g hg => hall g (List.mem_cons_of_mem f hg))]

/-- While speaking, voice-present frames keep the session speaking, leave the
silence accumulator untouched, and emit only speech_active events. -/
theorem runTrace_present_speaking (cfg : VoiceActivityConfig) :
    ∀ (frames : List PolledFrame) (s : RunState),
      s.isSpeaking = true → (∀ f ∈ frames, f.present = true) →
      (runTrace cfg s frames).1.isSpeaking = true ∧
      (runTrace cfg s frames).1.silenceStartTime = s.silenceStartTime ∧
      ∀ ev ∈ (runTrace cfg s frames).2, ev.type = EventType.speech_active := by
  intro frames
  induction frames with
  | nil => intro s hs _; simp [runTrace_nil, hs]
  | cons f rest ih =>
    intro s hs hall
    have hp := hall f (List.mem_cons_self f rest)
    have hstep : stateStep cfg s f.now f.present f.energy f.confidence =
        ({ s with lastSpeechTime := f.now },
         [{ type := EventType.speech_active, timestamp := f.now, energy := f.energy,
            confidence := f.confidence }]) := by
      rw [hp]
      simp [stateStep, hs]
    obtain ⟨h1, h2, h3⟩ := ih { s with lastSpeechTime := f.now } hs
      (fun g hg => hall g (List.mem_cons_of_mem f hg))
    rw [runTrace_cons]
    simp only [hstep]
    refine ⟨h1, h2, ?_⟩
    intro ev hev
    rcases List.mem_append.mp hev with h | h
    · simp at h
      rw [h]
    · exact h3 ev h

/-- While not speaking, a run of voice-present frames all polled within
minSpeechDuration of a base instant no later than the accumulator emits
nothing at all; the accumulator stays at zero or at or after the base. -/
theorem runTrace_pulse (cfg : VoiceActivityConfig) (t1 : ℤ) (ht : 0 < t1) :
    ∀ (frames : List PolledFrame) (s : RunState),
      s.isSpeaking = false →
      (s.speechStartTime = 0 ∨ t1 ≤ s.speechStartTime) →
      (∀ f ∈ frames, f.present = true ∧ t1 ≤ f.now ∧
        f.now - t1 < cfg.minSpeechDuration) →
      (runTrace cfg s frames).1.isSpeaking = false ∧
      ((runTrace cfg s frames).1.speechStartTime = 0 ∨
        t1 ≤ (runTrace cfg s frames).1.speechStartTime) ∧
      (runTrace cfg s frames).2 = [] := by
  intro frames
  induction frames with
  | nil => intro s hs hsst _; exact ⟨hs, hsst, rfl⟩
  | cons f rest ih =>
    intro s hs hsst hall
    obtain ⟨hp, hge, hlt⟩ := hall f (List.mem_cons_self f rest)
    rcases hsst with h0 | hT
    · have hstep : stateStep cfg s f.now f.present f.energy f.confidence =
          ({ s with lastSpeechTime := f.now, speechStartTime := f.now }, []) := by
        rw [hp]
        simp [stateStep, hs, h0]
      obtain ⟨h1, h2, h3⟩ := ih { s with lastSpeechTime := f.now, speechStartTime := f.now }
        hs (Or.inr hge) (fun g hg => hall g (List.mem_cons_of_mem f hg))
      rw [runTrace_cons]
      simp only [hstep]
      exact ⟨h1, h2, by simp [h3]⟩
    · have hne : s.speechStartTime ≠ 0 := by
        intro h
        rw [h] at hT
        exact absurd (lt_of_lt_of_le ht hT) (lt_irrefl 0)
      have hnc : ¬ cfg.minSpeechDuration ≤ f.now - s.speechStartTime := by
        apply not_le.mpr
        omega
      have hstep : stateStep cfg s f.now f.present f.energy f.confidence =
          ({ s with lastSpeechTime := f.now }, []) := by
        rw [hp]
        simp [stateStep, hs, hne, hnc]
      obtain ⟨h1, h2, h3⟩ := ih { s with lastSpeechTime := f.now }
        hs (Or.inr hT) (fun g hg => hall g (List.mem_cons_of_mem f hg))
      rw [runTrace_cons]
      simp only [hstep]
      exact ⟨h1, h2, by simp [h3]⟩

/-- A voice-absent frame while not speaking clears the speech accumulator
whenever it is polled before the accumulator ages by minSpeechDuration, and
can emit only a noise event. -/
theorem stateStep_absent_clear (cfg : VoiceActivityConfig) (s : RunState) (now : ℤ)
    (e c : ℚ) (hs : s.isSpeaking = false)
    (h : s.speechStartTime = 0 ∨ now - s.speechStartTime < cfg.minSpeechDuration) :
    (stateStep cfg s now false e c).1.speechStartTime = 0 ∧
    (stateStep cfg s now false e c).1.isSpeaking = false ∧
    ∀ ev ∈ (stateStep cfg s now false e c).2, ev.type = EventType.noise := by
  by_cases hz : s.speechStartTime = 0
  · by_cases hn : cfg.energyThreshold * 0.5 < e <;>
      simp [stateStep, hs, hz, hn]
  · have hlt : now - s.speechStartTime < cfg.minSpeechDuration := h.resolve_left hz
    by_cases hn : cfg.energyThreshold * 0.5 < e <;>
      simp [stateStep, hs, hz, hlt, hn]

/-- A voice-absent frame never emits speech_start or speech_active. -/
theorem stateStep_absent_no_start (cfg : VoiceActivityConfig) (s : RunState)
    (now : ℤ) (e c : ℚ) :
    ∀ ev ∈ (stateStep cfg s now false e c).2,
      ev.type ≠ EventType.speech_start ∧ ev.type ≠ EventType.speech_active := by
  simp only [stateStep]
  split_ifs <;> simp_all

/-- C1, counterexample.  With the default configuration (minSilenceDuration =
800 ms) and the schedule voice at 1000 and 1400 (confirming speech_start at
1400), absent at 1500 and 2200, voice again at 2299, absent at 2400, a
speech_end is emitted at 2400 even though voice was present 101 ms earlier,
so voice was not absent on every polled frame spanning 800 ms; moreover after
the recovery frame at 2299 the silence accumulator still holds 1500: the
failed end-debounce did not reset it. -/
theorem c1_counterexample :
    ((runTrace DEFAULT_CONFIG initialRunState
        [⟨1000, 0, 1⟩, ⟨1400, 0, 1⟩, ⟨1500, 0, 0⟩, ⟨2200, 0, 0⟩, ⟨2299, 0, 1⟩,
         ⟨2400, 0, 0⟩]).2.map (fun e => (e.type, e.timestamp, e.duration))) =
      [(EventType.speech_start, 1400, none), (EventType.speech_active, 2299, none),
       (EventType.speech_end, 2400, some 901)] ∧
    (PolledFrame.mk 2299 0 1).present = true ∧
    (2400 : ℤ) - 2299 < DEFAULT_CONFIG.minSilenceDuration ∧
    (runTrace DEFAULT_CONFIG initialRunState
        [⟨1000, 0, 1⟩, ⟨1400, 0, 1⟩, ⟨1500, 0, 0⟩, ⟨2200, 0, 0⟩,
         ⟨2299, 0, 1⟩]).1.silenceStartTime = 1500 := by
  refine ⟨?_, ?_, ?_, ?_⟩ <;>
    norm_num [runTrace, stateStep, PolledFrame.present, isVoicePresent,
      DEFAULT_CONFIG, initialRunState]

/-- C1 (amended).  After a confirmed speech_start: (1) a voice-present frame
while speaking never touches silenceStartTime, so a failed end-debounce does
not reset the accumulator; (2) a first voice-absent frame followed by further
absent frames all within minSilenceDuration of it and then by renewed voice
emits no speech_end and no speech_start, the session stays Speaking, but
silenceStartTime keeps the first absent frame's clock across the recovery;
(3) consequently a later voice-absent frame confirms speech_end as soon as
its clock is minSilenceDuration past that retained silenceStartTime, with no
requirement that voice was absent throughout. -/
theorem c1_amended (cfg : VoiceActivityConfig) :
    (∀ (s : RunState) (now : ℤ) (e c : ℚ), s.isSpeaking = true →
      (stateStep cfg s now true e c).1.silenceStartTime = s.silenceStartTime) ∧
    (∀ (s : RunState) (f1 : PolledFrame) (A P : List PolledFrame),
      s.isSpeaking = true → s.silenceStartTime = 0 →
      f1.present = false → f1.now ≠ 0 →
      (∀ f ∈ A, f.present = false ∧ f.now - f1.now < cfg.minSilenceDuration) →
      (∀ f ∈ P, f.present = true) →
      (runTrace cfg s (f1 :: (A ++ P))).1.isSpeaking = true ∧
      (runTrace cfg s (f1 :: (A ++ P))).1.silenceStartTime = f1.now ∧
      ∀ ev ∈ (runTrace cfg s (f1 :: (A ++ P))).2,
        ev.type ≠ EventType.speech_end ∧ ev.type ≠ EventType.speech_start) ∧
    (∀ (s : RunState) (now : ℤ) (e c : ℚ), s.isSpeaking = true →
      s.silenceStartTime ≠ 0 → cfg.minSilenceDuration ≤ now - s.silenceStartTime →
      (stateStep cfg s now false e c).2 =
        [{ type := EventType.speech_end, timestamp := now, energy := e,
           confidence := c,
           duration := some (now - s.lastSpeechTime + cfg.minSilenceDuration) }]) := by
  refine ⟨?_, ?_, ?_⟩
  · intro s now e c hs
    exact stateStep_silence_of_present cfg s now e c hs
  · intro s f1 A P hs hsil hp hne hA hP
    have hstep : stateStep cfg s f1.now f1.present f1.energy f1.confidence =
        ({ s with silenceStartTime := f1.now }, []) := by
      rw [hp]
      simp [stateStep, hs, hsil]
    have hwin := runTrace_absent_window cfg f1.now hne A
      { s with silenceStartTime := f1.now } hs rfl hA
    obtain ⟨q1, q2, q3⟩ := runTrace_present_speaking cfg P
      { s with silenceStartTime := f1.now } hs hP
    rw [runTrace_cons]
    simp only [hstep, runTrace_append, hwin, List.nil_append, List.append_nil]
    refine ⟨q1, by rw [q2], ?_⟩
    intro ev hev
    have := q3 ev hev
    rw [this]
    exact ⟨by simp, by simp⟩
  · intro s now e c hs hne hge
    simp [stateStep, hs, hne, hge]

/-- C1 witness: a concrete 700 ms voice drop after a confirmed start,
followed by recovery, leaves the session speaking with the silence
accumulator still holding the drop's first clock. -/
theorem c1_amended_witness :
    (runTrace DEFAULT_CONFIG
        { isSpeaking := true, speechStartTime := 1000, lastSpeechTime := 1400,
          silenceStartTime := 0 }
        [⟨1500, 0, 0⟩, ⟨2200, 0, 0⟩, ⟨2299, 0, 1⟩]).1.isSpeaking = true ∧
    (runTrace DEFAULT_CONFIG
        { isSpeaking := true, speechStartTime := 1000, lastSpeechTime := 1400,
          silenceStartTime := 0 }
        [⟨1500, 0, 0⟩, ⟨2200, 0, 0⟩, ⟨2299, 0, 1⟩]).1.silenceStartTime = 1500 := by
  have h := (c1_amended DEFAULT_CONFIG).2.1
    { isSpeaking := true, speechStartTime := 1000, lastSpeechTime := 1400,
      silenceStartTime := 0 }
    ⟨1500, 0, 0⟩ [⟨2200, 0, 0⟩] [⟨2299, 0, 1⟩] rfl rfl
    (by norm_num [PolledFrame.present, isVoicePresent])
    (by norm_num)
    (by
      intro f hf
      simp only [List.mem_singleton] at hf
      subst hf
      exact ⟨by norm_num [PolledFrame.present, isVoicePresent],
        by norm_num [DEFAULT_CONFIG]⟩)
    (by
      intro f hf
      simp only [List.mem_singleton] at hf
      subst hf
      norm_num [PolledFrame.present, isVoicePresent])
  exact ⟨h.1, h.2.1⟩

/-- C2, counterexample.  With the default configuration (minSpeechDuration =
300 ms), a pulse with voice frames at 100, 200, 300 (voice gone by the next
poll), a voice-absent frame polled at 450, and a single first frame of a
second pulse at 1000: the absent frame at 450 does not reset the speech
accumulator (450 - 100 = 350 is not below 300), so speechStartTime is still
100 afterwards, and the lone frame at 1000 immediately confirms speech_start
although voice had just returned on that very frame. -/
theorem c2_counterexample :
    ((runTrace DEFAULT_CONFIG initialRunState
        [⟨100, 0, 1⟩, ⟨200, 0, 1⟩, ⟨300, 0, 1⟩, ⟨450, 0, 0⟩, ⟨1000, 0, 1⟩]).2.map
        (fun e => (e.type, e.timestamp))) = [(EventType.speech_start, 1000)] ∧
    (PolledFrame.mk 450 0 0).present = false ∧
    (runTrace DEFAULT_CONFIG initialRunState
        [⟨100, 0, 1⟩, ⟨200, 0, 1⟩, ⟨300, 0, 1⟩, ⟨450, 0, 0⟩]).1.speechStartTime
      = 100 := by
  refine ⟨?_, ?_, ?_⟩ <;>
    norm_num [runTrace, stateStep, PolledFrame.present, isVoicePresent,
      DEFAULT_CONFIG, initialRunState]

/-- C2 (amended).  (1) A voice-absent frame while not speaking resets
speechStartTime exactly when the accumulator is nonzero and the frame is
polled strictly before the accumulator ages by minSpeechDuration; otherwise
the stale accumulator persists.  (2) Under a schedule where the inter-pulse
silence is polled within minSpeechDuration of the first pulse's base instant,
a short pulse, the absent frame, and a second short pulse emit no
speech_start at all and leave the session not speaking. -/
theorem c2_amended (cfg : VoiceActivityConfig) :
    (∀ (s : RunState) (now : ℤ) (e c : ℚ), s.isSpeaking = false →
      (stateStep cfg s now false e c).1.speechStartTime =
        (if s.speechStartTime ≠ 0 ∧ now - s.speechStartTime < cfg.minSpeechDuration
         then 0 else s.speechStartTime)) ∧
    (∀ (s : RunState) (t1 t2 : ℤ) (P1 P2 : List PolledFrame) (g : PolledFrame),
      s.isSpeaking = false → s.speechStartTime = 0 →
      0 < t1 →
      (∀ f ∈ P1, f.present = true ∧ t1 ≤ f.now ∧
        f.now - t1 < cfg.minSpeechDuration) →
      g.present = false → g.now - t1 < cfg.minSpeechDuration →
      0 < t2 →
      (∀ f ∈ P2, f.present = true ∧ t2 ≤ f.now ∧
        f.now - t2 < cfg.minSpeechDuration) →
      (∀ ev ∈ (runTrace cfg s (P1 ++ g :: P2)).2,
        ev.type ≠ EventType.speech_start) ∧
      (runTrace cfg s (P1 ++ g :: P2)).1.isSpeaking = false) := by
  constructor
  · intro s now e c hs
    by_cases hcond : s.speechStartTime ≠ 0 ∧
        now - s.speechStartTime < cfg.minSpeechDuration <;>
      by_cases hn : cfg.energyThreshold * 0.5 < e <;>
      simp [stateStep, hs, hcond, hn]
  · intro s t1 t2 P1 P2 g hs h0 ht1 hP1 hgp hglt ht2 hP2
    obtain ⟨a1, a2, a3⟩ := runTrace_pulse cfg t1 ht1 P1 s hs (Or.inl h0) hP1
    have hcl : (runTrace cfg s P1).1.speechStartTime = 0 ∨
        g.now - (runTrace cfg s P1).1.speechStartTime < cfg.minSpeechDuration := by
      rcases a2 with h | h
      · exact Or.inl h
      · exact Or.inr (by omega)
    obtain ⟨b1, b2, b3⟩ := stateStep_absent_clear cfg (runTrace cfg s P1).1 g.now
      g.energy g.confidence a1 hcl
    obtain ⟨d1, d2, d3⟩ := runTrace_pulse cfg t2 ht2 P2
      (stateStep cfg (runTrace cfg s P1).1 g.now false g.energy g.confidence).1
      b2 (Or.inl b1) hP2
    rw [runTrace_append, runTrace_cons, hgp]
    simp only [a3, List.nil_append]
    constructor
    · intro ev hev
      rcases List.mem_append.mp hev with h | h
      · rw [b3 ev h]
        simp
      · rw [d3] at h
        simp at h
    · exact d1

/-- C2 witness: a one-frame pulse at 100, silence polled at 200, and a second
one-frame pulse at 900 never confirm a speech_start under the default
configuration. -/
theorem c2_amended_witness :
    (∀ ev ∈ (runTrace DEFAULT_CONFIG initialRunState
        [⟨100, 0, 1⟩, ⟨200, 0, 0⟩, ⟨900, 0, 1⟩]).2,
      ev.type ≠ EventType.speech_start) ∧
    (runTrace DEFAULT_CONFIG initialRunState
        [⟨100, 0, 1⟩, ⟨200, 0, 0⟩, ⟨900, 0, 1⟩]).1.isSpeaking = false := by
  have h := (c2_amended DEFAULT_CONFIG).2 initialRunState 100 900
    [⟨100, 0, 1⟩] [⟨900, 0, 1⟩] ⟨200, 0, 0⟩ rfl rfl
    (by norm_num)
    (by
      intro f hf
      simp only [List.mem_singleton] at hf
      subst hf
      exact ⟨by norm_num [PolledFrame.present, isVoicePresent], by norm_num,
        by norm_num [DEFAULT_CONFIG]⟩)
    (by norm_num [PolledFrame.present, isVoicePresent])
    (by norm_num [DEFAULT_CONFIG])
    (by norm_num)
    (by
      intro f hf
      simp only [List.mem_singleton] at hf
      subst hf
      exact ⟨by norm_num [PolledFrame.present, isVoicePresent], by norm_num,
        by norm_num [DEFAULT_CONFIG]⟩)
  exact h

/-- C3, counterexample.  updateConfig with voiceFrequencyMin = 5000 against
the default voiceFrequencyMax = 3400 is not rejected: the update takes
effect, the live configuration then violates voiceFrequencyMin <
voiceFrequencyMax, and the previous configuration does not remain in
effect. -/
theorem c3_counterexample :
    (updateConfig (mkDetector {}) { voiceFrequencyMin := some 5000 }).config.voiceFrequencyMin
        = 5000 ∧
    (updateConfig (mkDetector {}) { voiceFrequencyMin := some 5000 }).config.voiceFrequencyMax
        = 3400 ∧
    ¬ ((updateConfig (mkDetector {}) { voiceFrequencyMin := some 5000 }).config.voiceFrequencyMin
        < (updateConfig (mkDetector {}) { voiceFrequencyMin := some 5000 }).config.voiceFrequencyMax) ∧
    (updateConfig (mkDetector {}) { voiceFrequencyMin := some 5000 }).config
        ≠ (mkDetector {}).config := by
  refine ⟨rfl, rfl,
    by norm_num [updateConfig, mergeConfig, mkDetector, DEFAULT_CONFIG], ?_⟩
  intro h
  have := congrArg VoiceActivityConfig.voiceFrequencyMin h
  norm_num [updateConfig, mergeConfig, mkDetector, DEFAULT_CONFIG] at this

/-- C3 (amended).  updateConfig performs no validation: it unconditionally
spread-merges the partial update into the live configuration, field by field,
touching nothing else, so out-of-range values are accepted and become the
live configuration. -/
theorem c3_amended (d : Detector) (p : ConfigPatch) :
    (updateConfig d p).config = mergeConfig d.config p ∧
    (updateConfig d p).config.energyThreshold
        = p.energyThreshold.getD d.config.energyThreshold ∧
    (updateConfig d p).config.zeroCrossingThreshold
        = p.zeroCrossingThreshold.getD d.config.zeroCrossingThreshold ∧
    (updateConfig d p).config.minSpeechDuration
        = p.minSpeechDuration.getD d.config.minSpeechDuration ∧
    (updateConfig d p).config.minSilenceDuration
        = p.minSilenceDuration.getD d.config.minSilenceDuration ∧
    (updateConfig d p).config.fftSize = p.fftSize.getD d.config.fftSize ∧
    (updateConfig d p).config.voiceFrequencyMin
        = p.voiceFrequencyMin.getD d.config.voiceFrequencyMin ∧
    (updateConfig d p).config.voiceFrequencyMax
        = p.voiceFrequencyMax.getD d.config.voiceFrequencyMax ∧
    (updateConfig d p).run = d.run ∧
    (updateConfig d p).energyHistory = d.energyHistory ∧
    (updateConfig d p).analyser = d.analyser ∧
    (updateConfig d p).animationFrame = d.animationFrame :=
  ⟨rfl, rfl, rfl, rfl, rfl, rfl, rfl, rfl, rfl, rfl, rfl, rfl⟩

/-- C4, counterexample.  On a length-0 frame the JS divisions 0 / 0 inside
calculateEnergy and calculateZeroCrossingRate produce NaN (modelled none),
not the zero the claim requires. -/
theorem c4_counterexample :
    calculateZeroCrossingRate [] = none ∧
    calculateZeroCrossingRate [] ≠ some 0 ∧
    calculateEnergyMeanSquare [] = none ∧
    calculateEnergyMeanSquare [] ≠ some 0 := by
  refine ⟨rfl, ?_, rfl, ?_⟩ <;> simp [calculateZeroCrossingRate, calculateEnergyMeanSquare]

/-- C4 (amended).  Per-frame feature extraction never throws (all three
extractors are total): on a length-0 frame, voice-band energy degrades to 0,
while energy and zero-crossing rate evaluate to NaN (the JS division 0 / 0),
not 0; NaN compares false against every threshold, so the frame behaves as
voice-absent and the state machine continues deterministically.  Voice-band
energy is also 0 whenever the configured bin range is degenerate (maxBin at
or below minBin) or out of range (minBin at or past the frame length). -/
theorem c4_amended :
    calculateEnergyMeanSquare [] = none ∧
    calculateZeroCrossingRate [] = none ∧
    (∀ (cfg : VoiceActivityConfig) (sr : Option ℚ),
      calculateVoiceEnergy cfg sr [] = 0) ∧
    (∀ (cfg : VoiceActivityConfig) (sr : ℚ) (data : List ℕ),
      (⌊cfg.voiceFrequencyMax / (sr / (cfg.fftSize : ℚ))⌋).toNat ≤
        (⌊cfg.voiceFrequencyMin / (sr / (cfg.fftSize : ℚ))⌋).toNat →
      calculateVoiceEnergy cfg (some sr) data = 0) ∧
    (∀ (cfg : VoiceActivityConfig) (sr : ℚ) (data : List ℕ),
      data.length ≤ (⌊cfg.voiceFrequencyMin / (sr / (cfg.fftSize : ℚ))⌋).toNat →
      calculateVoiceEnergy cfg (some sr) data = 0) := by
  refine ⟨rfl, rfl, ?_, ?_, ?_⟩
  · intro cfg sr
    cases sr with
    | none => rfl
    | some q => simp [calculateVoiceEnergy]
  · intro cfg sr data h
    have hc : min (⌊cfg.voiceFrequencyMax / (sr / (cfg.fftSize : ℚ))⌋).toNat
        data.length - (⌊cfg.voiceFrequencyMin / (sr / (cfg.fftSize : ℚ))⌋).toNat = 0 := by
      omega
    simp [calculateVoiceEnergy, hc]
  · intro cfg sr data h
    have hc : min (⌊cfg.voiceFrequencyMax / (sr / (cfg.fftSize : ℚ))⌋).toNat
        data.length - (⌊cfg.voiceFrequencyMin / (sr / (cfg.fftSize : ℚ))⌋).toNat = 0 := by
      omega
    simp [calculateVoiceEnergy, hc]

/-- C4 witness: with the default band narrowed to a single frequency the bin
range is degenerate and the voice-band energy of a nonzero frame is 0. -/
theorem c4_amended_witness :
    calculateVoiceEnergy
      { DEFAULT_CONFIG with voiceFrequencyMin := 3400 } (some 16000) [200, 200, 200]
      = 0 := by
  refine c4_amended.2.2.2.1 _ 16000 _ ?_
  norm_num [DEFAULT_CONFIG]

/-- C5.  Every speech_end event carries duration = (confirmation clock -
lastSpeechTime) + minSilenceDuration, where lastSpeechTime at confirmation is
the clock of the last polled voice-present frame (the frame before the
final silence run began); events of every other type carry no duration. -/
theorem c5_speech_end_duration (cfg : VoiceActivityConfig) :
    (∀ (s : RunState) (now : ℤ) (p : Bool) (e c : ℚ),
      ∀ ev ∈ (stateStep cfg s now p e c).2,
        (ev.duration ≠ none ↔ ev.type = EventType.speech_end) ∧
        (ev.type = EventType.speech_end →
          ev.duration = some (now - s.lastSpeechTime + cfg.minSilenceDuration) ∧
          ev.timestamp = now)) ∧
    (∀ (frames : List PolledFrame) (s : RunState),
      ∀ ev ∈ (runTrace cfg s frames).2,
        (ev.duration ≠ none ↔ ev.type = EventType.speech_end)) ∧
    (∀ (frames : List PolledFrame) (s : RunState),
      (runTrace cfg s frames).1.lastSpeechTime =
        frames.foldl (fun t f => if f.present = true then f.now else t)
          s.lastSpeechTime) := by
  refine ⟨?_, ?_, ?_⟩
  · intro s now p e c ev hev
    obtain ⟨h1, h2⟩ := stateStep_duration cfg s now p e c ev hev
    exact ⟨h1, fun ht => ⟨h2 ht, stateStep_timestamp cfg s now p e c ev hev⟩⟩
  · exact fun frames s => runTrace_duration_iff cfg frames s
  · exact fun frames s => runTrace_lastSpeechTime cfg frames s

/-- C5 witness: a concrete end-confirming frame at 2400 after a last
voice-present frame at 2299 emits exactly one speech_end whose duration is
101 + 800 = 901. -/
theorem c5_witness :
    ((stateStep DEFAULT_CONFIG
        { isSpeaking := true, speechStartTime := 1000, lastSpeechTime := 2299,
          silenceStartTime := 1500 } 2400 false 0 0).2 =
      [{ type := EventType.speech_end, timestamp := 2400, energy := 0,
         confidence := 0, duration := some 901 }]) ∧
    ({ type := EventType.speech_end, timestamp := 2400, energy := 0,
       confidence := 0, duration := some (901 : ℤ) } : VoiceActivityEvent).duration =
      some (2400 - 2299 + DEFAULT_CONFIG.minSilenceDuration) := by
  have hlist : (stateStep DEFAULT_CONFIG
      { isSpeaking := true, speechStartTime := 1000, lastSpeechTime := 2299,
        silenceStartTime := 1500 } 2400 false 0 0).2 =
      [{ type := EventType.speech_end, timestamp := 2400, energy := 0,
         confidence := 0, duration := some 901 }] := by
    norm_num [stateStep, DEFAULT_CONFIG]
  have h := ((c5_speech_end_duration DEFAULT_CONFIG).1
    { isSpeaking := true, speechStartTime := 1000, lastSpeechTime := 2299,
      silenceStartTime := 1500 } 2400 false 0 0
    { type := EventType.speech_end, timestamp := 2400, energy := 0,
      confidence := 0, duration := some 901 }
    (by rw [hlist]; exact List.mem_singleton_self _)).2 rfl
  exact ⟨hlist, h.1⟩

/-- C6.  For a schedule polled in nondecreasing clock order, the emitted
events appear in a single order matching frame arrival (their timestamps are
nondecreasing, each event stamped with its frame's clock), and among the
boundary events a speech_start is never followed by another speech_start
without an intervening speech_end. -/
theorem c6_event_ordering (cfg : VoiceActivityConfig) (frames : List PolledFrame)
    (h : frames.Pairwise (fun f g => f.now ≤ g.now)) :
    ((runTrace cfg initialRunState frames).2.map (fun e => e.timestamp)).Pairwise
      (· ≤ ·) ∧
    List.Chain' (fun a b => a = EventType.speech_start → b = EventType.speech_end)
      (boundaryTypes (runTrace cfg initialRunState frames).2) := by
  refine ⟨runTrace_timestamps_sorted cfg frames initialRunState h, ?_⟩
  exact altFrom_chain _ _ (runTrace_altFrom cfg frames initialRunState)

/-- C6 witness: a concrete monotone schedule producing one speech_start and
one speech_end in arrival order. -/
theorem c6_witness :
    ((runTrace DEFAULT_CONFIG initialRunState
        [⟨100, 0, 1⟩, ⟨500, 0, 1⟩, ⟨600, 0, 0⟩, ⟨1500, 0, 0⟩]).2.map
      (fun e => e.timestamp)).Pairwise (· ≤ ·) :=
  (c6_event_ordering DEFAULT_CONFIG
    [⟨100, 0, 1⟩, ⟨500, 0, 1⟩, ⟨600, 0, 0⟩, ⟨1500, 0, 0⟩]
    (by norm_num [List.pairwise_cons])).1

/-- C7.  With a positive configured energy floor, for any frame with
nonnegative energy and voice-band energy the fused confidence equals
0.4 * energyScore + 0.5 * voiceScore + 0.1 * zcrScore over the adaptive
threshold, lies in the closed interval from 0 to 1, and voice is considered
present in a frame exactly when the confidence exceeds 0.6. -/
theorem c7_confidence (cfg : VoiceActivityConfig) (energy voiceEnergy zcr : ℚ)
    (hist : List ℚ) (he : 0 ≤ energy) (hv : 0 ≤ voiceEnergy)
    (hthr : 0 < cfg.energyThreshold) :
    confidenceScore cfg energy voiceEnergy zcr (adaptiveThreshold cfg hist) =
      0.4 * min 1 (energy / adaptiveThreshold cfg hist) +
      0.5 * min 1 (voiceEnergy / adaptiveThreshold cfg hist) +
      0.1 * (if zcr < cfg.zeroCrossingThreshold then 1 else 0) ∧
    0 ≤ confidenceScore cfg energy voiceEnergy zcr (adaptiveThreshold cfg hist) ∧
    confidenceScore cfg energy voiceEnergy zcr (adaptiveThreshold cfg hist) ≤ 1 ∧
    (∀ q : ℚ, isVoicePresent q = true ↔ 0.6 < q) := by
  have hpos : 0 < adaptiveThreshold cfg hist :=
    lt_of_lt_of_le hthr (le_max_left _ _)
  have hcs : confidenceScore cfg energy voiceEnergy zcr (adaptiveThreshold cfg hist) =
      min 1 (energy / adaptiveThreshold cfg hist) * 0.4 +
      min 1 (voiceEnergy / adaptiveThreshold cfg hist) * 0.5 +
      (if zcr < cfg.zeroCrossingThreshold then (1 : ℚ) else 0) * 0.1 := rfl
  have ha0 : 0 ≤ min 1 (energy / adaptiveThreshold cfg hist) :=
    le_min (by norm_num) (div_nonneg he hpos.le)
  have ha1 : min 1 (energy / adaptiveThreshold cfg hist) ≤ 1 := min_le_left _ _
  have hb0 : 0 ≤ min 1 (voiceEnergy / adaptiveThreshold cfg hist) :=
    le_min (by norm_num) (div_nonneg hv hpos.le)
  have hb1 : min 1 (voiceEnergy / adaptiveThreshold cfg hist) ≤ 1 := min_le_left _ _
  have hz0 : 0 ≤ (if zcr < cfg.zeroCrossingThreshold then (1 : ℚ) else 0) := by
    split_ifs <;> norm_num
  have hz1 : (if zcr < cfg.zeroCrossingThreshold then (1 : ℚ) else 0) ≤ 1 := by
    split_ifs <;> norm_num
  refine ⟨by rw [hcs]; ring, ?_, ?_, ?_⟩
  · rw [hcs]
    nlinarith
  · rw [hcs]
    nlinarith
  · intro q
    simp [isVoicePresent]

/-- C7 witness: zero energies over an empty history under the default
configuration give a confidence between 0 and 1. -/
theorem c7_witness :
    0 ≤ confidenceScore DEFAULT_CONFIG 0 0 0 (adaptiveThreshold DEFAULT_CONFIG []) ∧
    confidenceScore DEFAULT_CONFIG 0 0 0 (adaptiveThreshold DEFAULT_CONFIG []) ≤ 1 := by
  have h := c7_confidence DEFAULT_CONFIG 0 0 0 [] le_rfl le_rfl
    (by norm_num [DEFAULT_CONFIG])
  exact ⟨h.2.1, h.2.2.1⟩

/-- C8.  After pushing the frame's energy, the history holds at most the 10
most recent values with the oldest evicted first (it equals the suffix of the
pushed list past its first length + 1 - 10 entries), the adaptive threshold
is the maximum of the configured floor and 1.5 times the history mean, hence
never below the configured energyThreshold; inside the detect loop the
stored history is exactly this pushed history. -/
theorem c8_adaptive (cfg : VoiceActivityConfig) (hist : List ℚ) (energy : ℚ)
    (h : hist.length ≤ 10) :
    (pushEnergy hist energy).length ≤ 10 ∧
    pushEnergy hist energy = (hist ++ [energy]).drop (hist.length + 1 - 10) ∧
    adaptiveThreshold cfg (pushEnergy hist energy) =
      max cfg.energyThreshold (avgEnergy (pushEnergy hist energy) * 1.5) ∧
    (∀ l : List ℚ, cfg.energyThreshold ≤ adaptiveThreshold cfg l) ∧
    (∀ (d : Detector) (now : ℤ) (v z : ℚ), d.analyser = true →
      (detectStep d now energy v z).1.energyHistory =
        pushEnergy d.energyHistory energy) := by
  refine ⟨?_, ?_, rfl, fun l => le_max_left _ _, ?_⟩
  · rcases Nat.lt_or_ge hist.length 10 with hl | hl
    · have hcond : ¬ energyHistorySize < hist.length + 1 := by
        simp only [energyHistorySize]
        omega
      simp only [pushEnergy, List.length_append, List.length_singleton, if_neg hcond]
      omega
    · have hcond : energyHistorySize < hist.length + 1 := by
        simp only [energyHistorySize]
        omega
      simp only [pushEnergy, List.length_append, List.length_singleton, if_pos hcond,
        List.length_tail]
      omega
  · rcases Nat.lt_or_ge hist.length 10 with hl | hl
    · have hcond : ¬ energyHistorySize < hist.length + 1 := by
        simp only [energyHistorySize]
        omega
      have hdrop : hist.length + 1 - 10 = 0 := by omega
      simp only [pushEnergy, List.length_append, List.length_singleton, if_neg hcond,
        hdrop, List.drop_zero]
    · have hcond : energyHistorySize < hist.length + 1 := by
        simp only [energyHistorySize]
        omega
      have hdrop : hist.length + 1 - 10 = 1 := by omega
      simp only [pushEnergy, List.length_append, List.length_singleton, if_pos hcond,
        hdrop]
      exact (List.drop_one _).symm
  · intro d now v z hd
    simp [detectStep, hd]

/-- C8 witness: pushing one energy onto an empty history keeps it within
bounds and the adaptive threshold at or above the configured floor. -/
theorem c8_witness :
    pushEnergy [] 0 = [(0 : ℚ)] ∧
    DEFAULT_CONFIG.energyThreshold ≤
      adaptiveThreshold DEFAULT_CONFIG (pushEnergy [] 0) := by
  have h := c8_adaptive DEFAULT_CONFIG [] 0 (by norm_num)
  exact ⟨by simpa using h.2.1, h.2.2.2.1 (pushEnergy [] 0)⟩

/-- Closed form of stop: whatever resources are present, the result always
has every resource released and the four state-machine fields zeroed, with
the configuration and the energy history untouched. -/
theorem Detector.stop_eq (d : Detector) :
    d.stop = { d with animationFrame := none, sourceNode := false,
                      audioContext := false, analyser := false,
                      run := { isSpeaking := false, speechStartTime := 0,
                               lastSpeechTime := 0, silenceStartTime := 0 } } := by
  unfold Detector.stop
  rcases hA : d.animationFrame with _ | t <;> by_cases hS : d.sourceNode <;>
    by_cases hC : d.audioContext <;> simp [hA, hS, hC]

/-- C9.  stop is idempotent and safe before init: it is a total operation on
any detector (resource releases no-op on absent resources), a second stop
returns the same detector, and afterwards getState reports isSpeaking =
false while speechStartTime, silenceStartTime and lastSpeechTime are back at
their initial zeros; in particular this holds for a freshly constructed,
never-initialized detector. -/
theorem c9_stop_idempotent (d : Detector) (p : ConfigPatch) (now : ℤ) :
    d.stop.stop = d.stop ∧
    (d.stop.getState now).isSpeaking = false ∧
    d.stop.run.speechStartTime = 0 ∧
    d.stop.run.silenceStartTime = 0 ∧
    d.stop.run.lastSpeechTime = 0 ∧
    d.stop.run = initialRunState ∧
    ((mkDetector p).stop.getState now).isSpeaking = false := by
  refine ⟨?_, ?_, ?_, ?_, ?_, ?_, ?_⟩
  · rw [Detector.stop_eq d, Detector.stop_eq]
  · rw [Detector.stop_eq d]
    rfl
  · rw [Detector.stop_eq d]
  · rw [Detector.stop_eq d]
  · rw [Detector.stop_eq d]
  · rw [Detector.stop_eq d]
    rfl
  · rw [Detector.stop_eq (mkDetector p)]
    rfl

/-- C10.  In every run state reachable from construction through per-frame
steps, configuration updates and stop, a nonzero silenceStartTime implies
isSpeaking: the detector never accumulates toward a speech end while not
speaking. -/
theorem c10_silence_invariant (s : RunState) (h : Reachable s) :
    s.silenceStartTime ≠ 0 → s.isSpeaking = true := by
  induction h with
  | init => intro h0; simp [initialRunState] at h0
  | frame _ ih => exact stateStep_silence_inv _ _ _ _ _ _ ih
  | update _ ih => exact ih
  | stopped _ _ => intro h0; simp [initialRunState] at h0

/-- C10 witness: the state reached by confirming a start at 1400 and then
polling one absent frame at 1500 has silenceStartTime 1500 and is speaking. -/
theorem c10_witness :
    ((stateStep DEFAULT_CONFIG
        (stateStep DEFAULT_CONFIG
          (stateStep DEFAULT_CONFIG initialRunState 1000 true 0 1).1
          1400 true 0 1).1
        1500 false 0 0).1).isSpeaking = true := by
  refine c10_silence_invariant _
    (Reachable.frame (Reachable.frame (Reachable.frame Reachable.init))) ?_
  norm_num [stateStep, initialRunState, DEFAULT_CONFIG]
